import Mathlib

/-!
A verification development for the SUBARUU interpreter (`src/subaruu.cc`),
a tree-walking interpreter for a minimal line-numbered BASIC-style
language.  The interpreter core (`SUBARUU`) is embedded shallowly below;
the lexical tokenizer is not part of the repository sources, so its state
and query interface are modelled from the specification of the external
token-source collaborator.
-/

namespace Subaruu

/-- Token kinds, as listed by the external-interface description
(NUMBER, LETTER, STRING, SEPARATOR, operators, parens, EOL, EOF and the
statement keywords). -/
inductive TokenType where
  | NUMBER
  | LETTER
  | STRING
  | SEPARATOR
  | PLUS
  | MINUS
  | ASTERISK
  | SLASH
  | EQUAL
  | LT
  | GT
  | LT_EQ
  | GT_EQ
  | NOT_EQUAL
  | LEFT_PAREN
  | RIGHT_PAREN
  | EOL
  | EOF_TOKEN
  | LET
  | IF
  | THEN
  | GOTO
  | PRINT
  | REM
deriving DecidableEq

/-- Modelled from the spec: one lexed token of the external tokenizer,
carrying its kind, the kind-specific payloads (`get_num`, `get_token_data`,
`get_string`), and `peekAfter`, the raw source character immediately
following the token's text (`peek_char`), with `none` when the source
stream is exhausted right after this token. -/
structure Tok where
  kind : TokenType
  num : Int
  ch : Char
  str : String
  peekAfter : Option Char
deriving DecidableEq

/-- The token returned by the tokenizer once the stream is exhausted. -/
def eofTok : Tok := ⟨TokenType.EOF_TOKEN, 0, ' ', "", none⟩

/-- Modelled from the spec: the external tokenizer state, a cursor (`pos`)
into the fixed token stream (`toks`) obtained from the source text. -/
structure Tokenizer where
  toks : List Tok
  pos : Nat
deriving DecidableEq

/-- The current token (`current_token` together with its payloads);
an `EOF_TOKEN` once the cursor is past the end of the stream. -/
def Tokenizer.cur (t : Tokenizer) : Tok := t.toks.getD t.pos eofTok

/-- Kind of the current token. -/
def Tokenizer.currentKind (t : Tokenizer) : TokenType := t.cur.kind

/-- `get_num`: numeric payload of the current token. -/
def Tokenizer.getNum (t : Tokenizer) : Int := t.cur.num

/-- `get_token_data` for a letter token: its character payload. -/
def Tokenizer.getCh (t : Tokenizer) : Char := t.cur.ch

/-- `get_string`: string payload of the current token. -/
def Tokenizer.getStr (t : Tokenizer) : String := t.cur.str

/-- `next_token`: advance the cursor by one token. -/
def Tokenizer.adv (t : Tokenizer) : Tokenizer := { t with pos := t.pos + 1 }

/-- `reset`: seek the cursor back to program start. -/
def Tokenizer.reset (t : Tokenizer) : Tokenizer := { t with pos := 0 }

/-- Modelled from the spec: `finished`, true when the token stream is
exhausted (no current token remains). -/
def Tokenizer.finished (t : Tokenizer) : Bool := decide (t.toks.length ≤ t.pos)

/-- Modelled from the spec: `peek_char`, the raw source character right
after the current token, or the end-of-stream marker (`none`). -/
def Tokenizer.peekChar (t : Tokenizer) : Option Char :=
  match t.toks.get? t.pos with
  | some tk => tk.peekAfter
  | none => none

/-- `std::tolower` restricted to ASCII, as applied by the interpreter to
variable-name characters. -/
def cppToLower (c : Char) : Char :=
  if 'A' ≤ c ∧ c ≤ 'Z' then Char.ofNat (c.toNat + 32) else c

/-- Lookup in the variable store (`variables_.find`). -/
def lookupVar : List (Char × Int) → Char → Option Int
  | [], _ => none
  | (d, w) :: rest, c => if d = c then some w else lookupVar rest c

/-- Variable read as performed by `factor`: the stored value when the
letter is present, `0` otherwise. -/
def readVar (vs : List (Char × Int)) (c : Char) : Int :=
  match lookupVar vs c with
  | some v => v
  | none => 0

/-- `variables_[c] = v`: update the letter's register in place when
present, insert it otherwise. -/
def setVar : List (Char × Int) → Char → Int → List (Char × Int)
  | [], c, v => [(c, v)]
  | (d, w) :: rest, c, v =>
      if d = c then (c, v) :: rest else (d, w) :: setVar rest c v

/-- The variable store built by the constructor: all 26 letters `a`–`z`
zero-initialized. -/
def initialVars : List (Char × Int) :=
  (List.range 26).map (fun i => (Char.ofNat (97 + i), (0 : Int)))

/-- The 26 lowercase letter keys, in store order. -/
def letterKeys : List Char := initialVars.map Prod.fst

/-- Interpreter state: tokenizer cursor, variable store, Line Index
membership set (`line_positions_`), run flags, standard output text and
the warning diagnostics emitted so far. -/
structure Interp where
  tok : Tokenizer
  vars : List (Char × Int)
  linePos : List Int
  executionFinished : Bool
  skipToLine : Bool
  targetLine : Int
  outS : String
  warns : List String
deriving DecidableEq

/-- Kind of the interpreter's current token. -/
def Interp.curKind (s : Interp) : TokenType := s.tok.currentKind

/-- Advance the interpreter's token cursor by one token. -/
def Interp.adv (s : Interp) : Interp := { s with tok := s.tok.adv }

/-- `dprintf` with `E_WARNING`: record the diagnostic and continue. -/
def warn (m : String) (s : Interp) : Interp := { s with warns := s.warns ++ [m] }

/-- The runtime-error message for a jump target missing from the
Line Index. -/
def rtMsg (ln : Int) : String :=
  "Runtime Error: Line number " ++ toString ln ++ " not found"

/-- The internal-error message for a rescan that failed to find a target
the Line Index contains. -/
def intMsg (ln : Int) : String :=
  "Internal Error: Failed to find valid line number " ++ toString ln

/-- Printable name of a token kind (`token_to_string`, modelled from the
spec's list of token kinds). -/
def tokName : TokenType → String
  | TokenType.NUMBER => "NUMBER"
  | TokenType.LETTER => "LETTER"
  | TokenType.STRING => "STRING"
  | TokenType.SEPARATOR => "SEPARATOR"
  | TokenType.PLUS => "PLUS"
  | TokenType.MINUS => "MINUS"
  | TokenType.ASTERISK => "ASTERISK"
  | TokenType.SLASH => "SLASH"
  | TokenType.EQUAL => "EQUAL"
  | TokenType.LT => "LT"
  | TokenType.GT => "GT"
  | TokenType.LT_EQ => "LT_EQ"
  | TokenType.GT_EQ => "GT_EQ"
  | TokenType.NOT_EQUAL => "NOT_EQUAL"
  | TokenType.LEFT_PAREN => "LEFT_PAREN"
  | TokenType.RIGHT_PAREN => "RIGHT_PAREN"
  | TokenType.EOL => "EOL"
  | TokenType.EOF_TOKEN => "EOF"
  | TokenType.LET => "LET"
  | TokenType.IF => "IF"
  | TokenType.THEN => "THEN"
  | TokenType.GOTO => "GOTO"
  | TokenType.PRINT => "PRINT"
  | TokenType.REM => "REM"

/-- `accept`: require the current token to be of the expected kind and
advance past it; a mismatch is a fatal syntax error naming both kinds. -/
def accept (expected : TokenType) (s : Interp) : Except String Interp :=
  if s.curKind = expected then Except.ok s.adv
  else
    Except.error ("*subaruu.cpp: unexpected `" ++ tokName s.curKind ++
      "` expected `" ++ tokName expected ++ "`")

/-- Whether a peeked raw character is the whitespace a line number must be
followed by. -/
def isWsChar (c : Char) : Bool := c = ' ' ∨ c = '\n' ∨ c = '\r'

/-- `is_valid_line_number`: a number is a line number when it is at least
10, an exact multiple of 10, and the raw character after it is space, LF
or CR — or the source stream is already exhausted there (modelled from
the spec: exhaustion is `peekChar = none`). -/
def is_valid_line_number (t : Tokenizer) (num : Int) : Bool :=
  if 10 ≤ num ∧ num % 10 = 0 then
    if t.finished then true
    else
      match t.peekChar with
      | none => true
      | some c => isWsChar c
  else false

/-- `is_line_number`: the print statement's variant of the heuristic on
the current token; it has no allowance for an exhausted stream (the
end-of-stream marker fails the whitespace test). -/
def is_line_number (t : Tokenizer) : Bool :=
  if t.currentKind = TokenType.NUMBER then
    if 10 ≤ t.getNum ∧ t.getNum % 10 = 0 then
      match t.peekChar with
      | none => false
      | some c => isWsChar c
    else false
  else false

/-- `is_statement_end`: end-of-line or end-of-file. -/
def is_statement_end (k : TokenType) : Bool :=
  k = TokenType.EOL ∨ k = TokenType.EOF_TOKEN

/-- `safe_divide`: division by zero degrades to a warning diagnostic and
a result of 0; otherwise C++ truncating integer division. -/
def safe_divide (numerator denominator : Int) (s : Interp) : Int × Interp :=
  if denominator = 0 then (0, warn "*warning: divide by zero" s)
  else (Int.tdiv numerator denominator, s)

/-- Advance while the current token exists and is not `EOL`
(fuel-indexed worker). -/
def skipToEolAux : Nat → Tokenizer → Tokenizer
  | 0, t => t
  | n + 1, t =>
      if t.finished then t
      else if t.currentKind = TokenType.EOL then t
      else skipToEolAux n t.adv

/-- Skip to the end of the current line and past its `EOL` token when one
is present (the loop shape shared by `find_target_line`, the run loop's
line-skipping mode, and the tokenizer's `skip_to_eol`). -/
def skipPastLine (t : Tokenizer) : Tokenizer :=
  let t1 := skipToEolAux (t.toks.length - t.pos) t
  if t1.currentKind = TokenType.EOL then t1.adv else t1

/-- Skip consecutive `EOL` tokens (fuel-indexed worker). -/
def skipEolsAux : Nat → Tokenizer → Tokenizer
  | 0, t => t
  | n + 1, t =>
      if t.currentKind = TokenType.EOL then skipEolsAux n t.adv else t

/-- Skip the blank-line prefix at the cursor (`line_statement`'s leading
loop). -/
def skipEols (t : Tokenizer) : Tokenizer := skipEolsAux (t.toks.length - t.pos) t

/-- `find_target_line`'s scanning loop (fuel-indexed worker): at each
line start, a number token equal to the target is consumed and reported
found; otherwise the whole line is skipped. -/
def ftlAux : Nat → Int → Tokenizer → Bool × Tokenizer
  | 0, _, t => (false, t)
  | n + 1, ln, t =>
      if t.finished then (false, t)
      else if t.currentKind = TokenType.NUMBER ∧ t.getNum = ln then (true, t.adv)
      else ftlAux n ln (skipPastLine t)

/-- `find_target_line`: linear scan for the target line number, assuming
the cursor was reset to program start; false when end-of-stream is
reached without a match. -/
def find_target_line (ln : Int) (t : Tokenizer) : Bool × Tokenizer :=
  ftlAux (t.toks.length - t.pos + 1) ln t

/-- `jump_linenum`'s token-by-token scanning loop (fuel-indexed
worker). -/
def jumpScanAux : Nat → Int → Tokenizer → Option Tokenizer
  | 0, _, _ => none
  | n + 1, ln, t =>
      if t.finished then none
      else
        if t.currentKind = TokenType.NUMBER ∧ t.getNum = ln then some t.adv
        else jumpScanAux n ln t.adv

/-- The scan performed by `jump_linenum` after resetting the cursor. -/
def jumpScan (ln : Int) (t : Tokenizer) : Option Tokenizer :=
  jumpScanAux (t.toks.length - t.pos + 1) ln t

/-- `build_line_map`'s scanning loop (fuel-indexed worker): record every
number token satisfying `is_valid_line_number`. -/
def buildAux : Nat → Tokenizer → List Int → List Int
  | 0, _, acc => acc
  | n + 1, t, acc =>
      if t.finished then acc
      else
        buildAux n t.adv
          (if t.currentKind = TokenType.NUMBER ∧ is_valid_line_number t t.getNum then
            if t.getNum ∈ acc then acc else acc ++ [t.getNum]
          else acc)

/-- `build_line_map`: clear the Line Index, reset the cursor, record every
number token satisfying the line-number heuristic in a full pass, and
reset the cursor again. -/
def build_line_map (s : Interp) : Interp :=
  { s with
    linePos := buildAux s.tok.toks.length s.tok.reset [],
    tok := s.tok.reset }

mutual

/-- `factor`: a number literal, a variable read (case-folded, defaulting
to 0), or a parenthesized expression; anything else is a fatal syntax
error. -/
def factor : Nat → Interp → Except String (Int × Interp)
  | 0, _ => Except.error "fuel exhausted"
  | n + 1, s =>
      if s.curKind = TokenType.NUMBER then Except.ok (s.tok.getNum, s.adv)
      else if s.curKind = TokenType.LETTER then
        Except.ok (readVar s.vars (cppToLower s.tok.getCh), s.adv)
      else if s.curKind = TokenType.LEFT_PAREN then do
        let r ← expression n s.adv
        let s2 ← accept TokenType.RIGHT_PAREN r.2
        Except.ok (r.1, s2)
      else
        Except.error ("Syntax Error: Unexpected token in factor: " ++ tokName s.curKind)

/-- `term`'s `* /` loop, left-associative, dividing through
`safe_divide`. -/
def termLoop : Nat → Int → Interp → Except String (Int × Interp)
  | 0, _, _ => Except.error "fuel exhausted"
  | n + 1, acc, s =>
      if s.curKind = TokenType.ASTERISK then do
        let r ← factor n s.adv
        termLoop n (acc * r.1) r.2
      else if s.curKind = TokenType.SLASH then do
        let r ← factor n s.adv
        let q := safe_divide acc r.1 r.2
        termLoop n q.1 q.2
      else Except.ok (acc, s)

/-- `term`: one factor followed by zero or more `* /` factors. -/
def term : Nat → Interp → Except String (Int × Interp)
  | 0, _ => Except.error "fuel exhausted"
  | n + 1, s => do
      let r ← factor n s
      termLoop n r.1 r.2

/-- `expression`'s `+ -` loop, left-associative. -/
def exprLoop : Nat → Int → Interp → Except String (Int × Interp)
  | 0, _, _ => Except.error "fuel exhausted"
  | n + 1, acc, s =>
      if s.curKind = TokenType.PLUS then do
        let r ← term n s.adv
        exprLoop n (acc + r.1) r.2
      else if s.curKind = TokenType.MINUS then do
        let r ← term n s.adv
        exprLoop n (acc - r.1) r.2
      else Except.ok (acc, s)

/-- `expression`: one term, then — unless the next token is a number
satisfying the line-number heuristic, which ends the expression at once —
zero or more `+ -` terms. -/
def expression : Nat → Interp → Except String (Int × Interp)
  | 0, _ => Except.error "fuel exhausted"
  | n + 1, s => do
      let r ← term n s
      if r.2.curKind = TokenType.NUMBER ∧
          is_valid_line_number r.2.tok r.2.tok.getNum then
        Except.ok r
      else
        exprLoop n r.1 r.2

end

/-- `relation`: one expression, optionally followed by a comparison
operator and a second expression; comparisons yield 1 or 0, and with no
operator the value is 1 exactly when the expression is non-zero. -/
def relation (n : Nat) (s : Interp) : Except String (Int × Interp) := do
  let r ← expression n s
  if r.2.curKind = TokenType.EQUAL then do
    let r2 ← expression n r.2.adv
    Except.ok (if r.1 = r2.1 then (1 : Int) else 0, r2.2)
  else if r.2.curKind = TokenType.LT then do
    let r2 ← expression n r.2.adv
    Except.ok (if r.1 < r2.1 then (1 : Int) else 0, r2.2)
  else if r.2.curKind = TokenType.GT then do
    let r2 ← expression n r.2.adv
    Except.ok (if r.1 > r2.1 then (1 : Int) else 0, r2.2)
  else if r.2.curKind = TokenType.LT_EQ then do
    let r2 ← expression n r.2.adv
    Except.ok (if r.1 ≤ r2.1 then (1 : Int) else 0, r2.2)
  else if r.2.curKind = TokenType.GT_EQ then do
    let r2 ← expression n r.2.adv
    Except.ok (if r.1 ≥ r2.1 then (1 : Int) else 0, r2.2)
  else if r.2.curKind = TokenType.NOT_EQUAL then do
    let r2 ← expression n r.2.adv
    Except.ok (if r.1 ≠ r2.1 then (1 : Int) else 0, r2.2)
  else
    Except.ok (if r.1 ≠ 0 then (1 : Int) else 0, r.2)

/-- `let_statement`: `letter = expression`, storing the value under the
lowercase-folded letter. -/
def let_statement (n : Nat) (s : Interp) : Except String Interp :=
  if s.curKind = TokenType.LETTER then do
    let vn := cppToLower s.tok.getCh
    let s1 ← accept TokenType.EQUAL s.adv
    let r ← expression n s1
    Except.ok { r.2 with vars := setVar r.2.vars vn r.1 }
  else Except.error "Syntax Error: Expected variable name"

/-- `if_statement`: `IF relation THEN number`; the target number token is
consumed in both branches; a true relation jumps (index existence check,
then reset-and-rescan), a false one merely consumes a trailing `EOL` when
present. -/
def if_statement (n : Nat) (s : Interp) : Except String Interp := do
  let s0 ← accept TokenType.IF s
  let r ← relation n s0
  let s2 ← accept TokenType.THEN r.2
  if s2.curKind = TokenType.NUMBER then
    let ln := s2.tok.getNum
    let s3 := s2.adv
    if r.1 ≠ 0 then
      if ln ∈ s3.linePos then
        match find_target_line ln s3.tok.reset with
        | (true, t1) => Except.ok { s3 with tok := t1 }
        | (false, _) => Except.error (intMsg ln)
      else Except.error (rtMsg ln)
    else
      if s3.curKind = TokenType.EOL then Except.ok s3.adv else Except.ok s3
  else Except.error "Syntax Error: Expected line number after THEN"

/-- `goto_statement`: `GOTO number EOL`; index existence check, then
reset-and-rescan via `find_target_line`. -/
def goto_statement (s : Interp) : Except String Interp := do
  let s1 ← accept TokenType.GOTO s
  let ln := s1.tok.getNum
  let s2 ← accept TokenType.NUMBER s1
  let s3 ← accept TokenType.EOL s2
  if ln ∈ s3.linePos then
    match find_target_line ln s3.tok.reset with
    | (true, t1) => Except.ok { s3 with tok := t1 }
    | (false, _) => Except.error (intMsg ln)
  else Except.error (rtMsg ln)

/-- The condition under which the print item loop proceeds to an item:
the current token is none of the loop's stopping tokens. -/
def printItemKind (k : TokenType) : Bool :=
  k = TokenType.STRING ∨ k = TokenType.SEPARATOR ∨ k = TokenType.LETTER ∨
    k = TokenType.NUMBER ∨ k = TokenType.LEFT_PAREN

/-- The single space emitted before an item when `need_space` is set. -/
def padS (b : Bool) : String := cond b " " ""

/-- `print_statement`'s item loop: emit strings, separators and
expression values with the `need_space` discipline; stop without
consuming at end-of-line/end-of-file, at a number passing
`is_line_number`, or at any unrecognized token. -/
def printLoop : Nat → Bool → Interp → Except String Interp
  | 0, _, _ => Except.error "fuel exhausted"
  | n + 1, needSpace, s =>
      if s.tok.finished then Except.ok s
      else if is_statement_end s.curKind then Except.ok s
      else if is_line_number s.tok then Except.ok s
      else if s.curKind = TokenType.STRING then
        printLoop n true
          { s.adv with outS := s.outS ++ padS needSpace ++ s.tok.getStr }
      else if s.curKind = TokenType.SEPARATOR then
        printLoop n false { s.adv with outS := s.outS ++ " " }
      else if s.curKind = TokenType.LETTER ∨ s.curKind = TokenType.NUMBER ∨
          s.curKind = TokenType.LEFT_PAREN then do
        let r ← expression n { s with outS := s.outS ++ padS needSpace }
        printLoop n true { r.2 with outS := r.2.outS ++ toString r.1 }
      else Except.ok s

/-- `print_statement`: `PRINT` then the item loop, then exactly one
newline; stopping at a line number leaves it (and any trailing `EOL`)
unconsumed, an `EOF` marks execution finished, a plain `EOL` is
consumed. -/
def print_statement (n : Nat) (s : Interp) : Except String Interp := do
  let s1 ← accept TokenType.PRINT s
  let s2raw ← printLoop n false s1
  let s2 := { s2raw with outS := s2raw.outS ++ "\n" }
  if is_line_number s2.tok then Except.ok s2
  else if s2.curKind = TokenType.EOF_TOKEN then
    Except.ok { s2 with executionFinished := true }
  else if s2.curKind = TokenType.EOL then Except.ok s2.adv
  else Except.ok s2

/-- `statement`: dispatch on the leading token (REM, PRINT, IF, GOTO,
LET-or-bare-letter assignment); anything else is a fatal syntax error. -/
def statement (n : Nat) (s : Interp) : Except String Interp :=
  if s.curKind = TokenType.REM then
    Except.ok { s with tok := skipPastLine s.tok }
  else if s.curKind = TokenType.PRINT then print_statement n s
  else if s.curKind = TokenType.IF then if_statement n s
  else if s.curKind = TokenType.GOTO then goto_statement s
  else if s.curKind = TokenType.LET then do
    let s1 ← accept TokenType.LET s
    let_statement n s1
  else if s.curKind = TokenType.LETTER then let_statement n s
  else Except.error "Syntax Error: Unrecognized statement"

/-- `line_statement`: skip blank lines, stop at end of file, consume a
leading line-number token when present, then execute one statement. -/
def line_statement (n : Nat) (s : Interp) : Except String Interp :=
  let s1 := { s with tok := skipEols s.tok }
  if s1.curKind = TokenType.EOF_TOKEN then
    Except.ok { s1 with executionFinished := true }
  else if s1.curKind = TokenType.NUMBER then statement n s1.adv
  else statement n s1

/-- `jump_linenum`: rebuild the Line Index when it is empty, reset the
cursor and scan token-by-token for the target, erroring when the scan
fails. -/
def jump_linenum (ln : Int) (s : Interp) : Except String Interp :=
  let s1 := if s.linePos = [] then build_line_map s else s
  match jumpScan ln s1.tok.reset with
  | some t1 => Except.ok { s1 with tok := t1 }
  | none => Except.error (rtMsg ln)

/-- The run loop body: stop when finished, mark finished at
end-of-stream, follow the line-search mode when `skip_to_line_` is set,
and otherwise execute one line statement. -/
def runLoop : Nat → Interp → Except String Interp
  | 0, s => Except.ok s
  | n + 1, s =>
      if s.executionFinished then Except.ok s
      else if s.tok.finished then Except.ok { s with executionFinished := true }
      else if s.skipToLine then
        if s.curKind = TokenType.NUMBER then
          if s.tok.getNum = s.targetLine then do
            let s1 := { s with skipToLine := false, targetLine := -1, tok := s.tok.adv }
            let s2 ← statement n s1
            runLoop n s2
          else runLoop n { s with tok := skipPastLine s.tok }
        else runLoop n { s with tok := skipPastLine s.tok }
      else do
        let s1 ← line_statement n s
        runLoop n s1

/-- `run`: build the Line Index once, then drive the run loop. -/
def run (n : Nat) (s : Interp) : Except String Interp :=
  runLoop n (build_line_map s)

/-- The interpreter state right after construction on a token stream:
cursor at start, all 26 variables zero, empty Line Index, not finished. -/
def initInterp (toks : List Tok) : Interp :=
  { tok := { toks := toks, pos := 0 },
    vars := initialVars,
    linePos := [],
    executionFinished := false,
    skipToLine := false,
    targetLine := -1,
    outS := "",
    warns := [] }

end Subaruu

namespace Subaruu

/-- Decomposition of a successful `Except` bind. -/
theorem bindOk {α β : Type} {e : Except String α} {f : α → Except String β} {b : β} :
    (e >>= f) = Except.ok b ↔ ∃ a, e = Except.ok a ∧ f a = Except.ok b := by
  cases e <;> simp [Bind.bind, Except.bind]

/-- Control-state preservation: the token list, variable store, Line
Index and run flags are unchanged. -/
def CEff (s s1 : Interp) : Prop :=
  s1.tok.toks = s.tok.toks ∧ s1.vars = s.vars ∧ s1.linePos = s.linePos ∧
    s1.executionFinished = s.executionFinished ∧ s1.skipToLine = s.skipToLine ∧
    s1.targetLine = s.targetLine

/-- Evaluator effect: control state and output both preserved (only the
cursor position and warnings may differ). -/
def Eff (s s1 : Interp) : Prop := CEff s s1 ∧ s1.outS = s.outS

theorem ceff_rfl {s : Interp} : CEff s s := ⟨rfl, rfl, rfl, rfl, rfl, rfl⟩

theorem ceff_trans {s t u : Interp} (h : CEff s t) (h1 : CEff t u) : CEff s u := by
  obtain ⟨a1, a2, a3, a4, a5, a6⟩ := h
  obtain ⟨b1, b2, b3, b4, b5, b6⟩ := h1
  exact ⟨b1.trans a1, b2.trans a2, b3.trans a3, b4.trans a4, b5.trans a5, b6.trans a6⟩

theorem eff_rfl {s : Interp} : Eff s s := ⟨ceff_rfl, rfl⟩

theorem eff_trans {s t u : Interp} (h : Eff s t) (h1 : Eff t u) : Eff s u :=
  ⟨ceff_trans h.1 h1.1, h1.2.trans h.2⟩

theorem eff_adv {s : Interp} : Eff s s.adv := ⟨⟨rfl, rfl, rfl, rfl, rfl, rfl⟩, rfl⟩

theorem eff_warn {s : Interp} {m : String} : Eff s (warn m s) :=
  ⟨⟨rfl, rfl, rfl, rfl, rfl, rfl⟩, rfl⟩

theorem warn_tok {s : Interp} {m : String} : (warn m s).tok = s.tok := rfl

theorem accept_ok {k : TokenType} {s s1 : Interp}
    (h : accept k s = Except.ok s1) : s1 = s.adv ∧ s.curKind = k := by
  unfold accept at h
  split at h
  · exact ⟨(Except.ok.injEq _ _).mp h |>.symm, by assumption⟩
  · cases h

theorem safe_divide_eff {a b : Int} {s : Interp} :
    Eff s (safe_divide a b s).2 ∧ (safe_divide a b s).2.tok = s.tok := by
  unfold safe_divide
  split
  · exact ⟨eff_warn, rfl⟩
  · exact ⟨eff_rfl, rfl⟩

theorem adv_pos {s : Interp} : s.adv.tok.pos = s.tok.pos + 1 := rfl

/-- The expression evaluator only moves the cursor forward (strictly, for
`factor`, `term` and `expression`) and emits warnings: every other state
component is untouched. -/
theorem evalEff :
    ∀ n : Nat,
      (∀ s r, factor n s = Except.ok r → Eff s r.2 ∧ s.tok.pos < r.2.tok.pos) ∧
      (∀ a s r, termLoop n a s = Except.ok r → Eff s r.2 ∧ s.tok.pos ≤ r.2.tok.pos) ∧
      (∀ s r, term n s = Except.ok r → Eff s r.2 ∧ s.tok.pos < r.2.tok.pos) ∧
      (∀ a s r, exprLoop n a s = Except.ok r → Eff s r.2 ∧ s.tok.pos ≤ r.2.tok.pos) ∧
      (∀ s r, expression n s = Except.ok r → Eff s r.2 ∧ s.tok.pos < r.2.tok.pos) := by
  intro n
  induction n with
  | zero =>
      refine ⟨?_, ?_, ?_, ?_, ?_⟩ <;> intro _ _
      · intro h; cases h
      · intro _ h; cases h
      · intro h; cases h
      · intro _ h; cases h
      · intro h; cases h
  | succ n ih =>
      obtain ⟨ihF, ihTL, ihT, ihEL, ihE⟩ := ih
      refine ⟨?_, ?_, ?_, ?_, ?_⟩
      · intro s r h
        unfold factor at h
        split_ifs at h with h1 h2 h3
        · obtain rfl := Except.ok.inj h
          exact ⟨eff_adv, by simp [adv_pos]⟩
        · obtain rfl := Except.ok.inj h
          exact ⟨eff_adv, by simp [adv_pos]⟩
        · rw [bindOk] at h
          obtain ⟨r1, hr1, h⟩ := h
          rw [bindOk] at h
          obtain ⟨s2, hs2, h⟩ := h
          obtain rfl := Except.ok.inj h
          obtain ⟨he, hp⟩ := ihE _ _ hr1
          obtain ⟨rfl, -⟩ := accept_ok hs2
          refine ⟨eff_trans eff_adv (eff_trans he eff_adv), ?_⟩
          simp only [adv_pos] at hp ⊢
          omega
      · intro a s r h
        unfold termLoop at h
        split_ifs at h with h1 h2
        · rw [bindOk] at h
          obtain ⟨r1, hr1, h⟩ := h
          obtain ⟨he1, hp1⟩ := ihF _ _ hr1
          obtain ⟨he2, hp2⟩ := ihTL _ _ _ h
          refine ⟨eff_trans eff_adv (eff_trans he1 he2), ?_⟩
          simp only [adv_pos] at hp1
          omega
        · rw [bindOk] at h
          obtain ⟨r1, hr1, h⟩ := h
          obtain ⟨he1, hp1⟩ := ihF _ _ hr1
          obtain ⟨he2, hp2⟩ := ihTL _ _ _ h
          obtain ⟨heq, htok⟩ := @safe_divide_eff a r1.1 r1.2
          refine ⟨eff_trans eff_adv (eff_trans he1 (eff_trans heq he2)), ?_⟩
          rw [htok] at hp2
          simp only [adv_pos] at hp1
          omega
        · obtain rfl := Except.ok.inj h
          exact ⟨eff_rfl, le_rfl⟩
      · intro s r h
        unfold term at h
        rw [bindOk] at h
        obtain ⟨r1, hr1, h⟩ := h
        obtain ⟨he1, hp1⟩ := ihF _ _ hr1
        obtain ⟨he2, hp2⟩ := ihTL _ _ _ h
        exact ⟨eff_trans he1 he2, lt_of_lt_of_le hp1 hp2⟩
      · intro a s r h
        unfold exprLoop at h
        split_ifs at h with h1 h2
        · rw [bindOk] at h
          obtain ⟨r1, hr1, h⟩ := h
          obtain ⟨he1, hp1⟩ := ihT _ _ hr1
          obtain ⟨he2, hp2⟩ := ihEL _ _ _ h
          refine ⟨eff_trans eff_adv (eff_trans he1 he2), ?_⟩
          simp only [adv_pos] at hp1
          omega
        · rw [bindOk] at h
          obtain ⟨r1, hr1, h⟩ := h
          obtain ⟨he1, hp1⟩ := ihT _ _ hr1
          obtain ⟨he2, hp2⟩ := ihEL _ _ _ h
          refine ⟨eff_trans eff_adv (eff_trans he1 he2), ?_⟩
          simp only [adv_pos] at hp1
          omega
        · obtain rfl := Except.ok.inj h
          exact ⟨eff_rfl, le_rfl⟩
      · intro s r h
        unfold expression at h
        rw [bindOk] at h
        obtain ⟨r1, hr1, h⟩ := h
        obtain ⟨he1, hp1⟩ := ihT _ _ hr1
        split_ifs at h with h1
        · obtain rfl := Except.ok.inj h
          exact ⟨he1, hp1⟩
        · obtain ⟨he2, hp2⟩ := ihEL _ _ _ h
          exact ⟨eff_trans he1 he2, lt_of_lt_of_le hp1 hp2⟩

/-- `relation` preserves the evaluator effect discipline. -/
theorem relation_eff {n : Nat} {s : Interp} {r : Int × Interp}
    (h : relation n s = Except.ok r) : Eff s r.2 := by
  unfold relation at h
  rw [bindOk] at h
  obtain ⟨r1, hr1, h⟩ := h
  have he1 := ((evalEff n).2.2.2.2 _ _ hr1).1
  split_ifs at h <;>
    first
    | (rw [bindOk] at h
       obtain ⟨r2, hr2, h⟩ := h
       have he2 := ((evalEff n).2.2.2.2 _ _ hr2).1
       obtain rfl := Except.ok.inj h
       exact eff_trans he1 (eff_trans eff_adv he2))
    | (obtain rfl := Except.ok.inj h
       exact he1)


theorem ceff_adv {s : Interp} : CEff s s.adv := ⟨rfl, rfl, rfl, rfl, rfl, rfl⟩

/-- `relation` only ever returns 0 or 1. -/
theorem relation_01 {n : Nat} {s : Interp} {r : Int × Interp}
    (h : relation n s = Except.ok r) : r.1 = 0 ∨ r.1 = 1 := by
  unfold relation at h
  rw [bindOk] at h
  obtain ⟨r1, hr1, h⟩ := h
  split_ifs at h <;>
    first
    | (rw [bindOk] at h
       obtain ⟨r2, hr2, h⟩ := h
       obtain rfl := Except.ok.inj h
       dsimp only
       split <;> simp)
    | (obtain rfl := Except.ok.inj h
       simp)

/-- The print item loop preserves the token list, the variable store, the
Line Index and the run flags, and only moves the cursor forward. -/
theorem printLoop_eff :
    ∀ n : Nat, ∀ ns : Bool, ∀ s s1 : Interp, printLoop n ns s = Except.ok s1 →
      CEff s s1 ∧ s.tok.pos ≤ s1.tok.pos := by
  intro n
  induction n with
  | zero => intro ns s s1 h; cases h
  | succ n ih =>
      intro ns s s1 h
      unfold printLoop at h
      split_ifs at h with h1 h2 h3 h4 h5 h6
      · obtain rfl := Except.ok.inj h
        exact ⟨ceff_rfl, le_rfl⟩
      · obtain rfl := Except.ok.inj h
        exact ⟨ceff_rfl, le_rfl⟩
      · obtain rfl := Except.ok.inj h
        exact ⟨ceff_rfl, le_rfl⟩
      · obtain ⟨hc, hp⟩ := ih _ _ _ h
        exact ⟨ceff_trans ⟨rfl, rfl, rfl, rfl, rfl, rfl⟩ hc,
          Nat.le_trans (Nat.le_succ _) hp⟩
      · obtain ⟨hc, hp⟩ := ih _ _ _ h
        exact ⟨ceff_trans ⟨rfl, rfl, rfl, rfl, rfl, rfl⟩ hc,
          Nat.le_trans (Nat.le_succ _) hp⟩
      · rw [bindOk] at h
        obtain ⟨r1, hr1, h⟩ := h
        obtain ⟨⟨hce, -⟩, hp1⟩ := (evalEff n).2.2.2.2 _ _ hr1
        obtain ⟨hc, hp⟩ := ih _ _ _ h
        refine ⟨ceff_trans ⟨rfl, rfl, rfl, rfl, rfl, rfl⟩
          (ceff_trans hce (ceff_trans ⟨rfl, rfl, rfl, rfl, rfl, rfl⟩ hc)), ?_⟩
        exact Nat.le_trans (Nat.le_of_lt hp1) hp
      · obtain rfl := Except.ok.inj h
        exact ⟨ceff_rfl, le_rfl⟩

/-- `setVar` leaves every other letter's register unchanged. -/
theorem lookupVar_setVar_ne {vs : List (Char × Int)} {c d : Char} {v : Int}
    (h : d ≠ c) : lookupVar (setVar vs c v) d = lookupVar vs d := by
  induction vs with
  | nil =>
      simp only [setVar, lookupVar]
      rw [if_neg (fun hcd => h hcd.symm)]
  | cons p rest ih =>
      obtain ⟨e, w⟩ := p
      simp only [setVar]
      by_cases he : e = c
      · rw [if_pos he]
        subst he
        simp only [lookupVar]
        rw [if_neg (fun hcd => h hcd.symm), if_neg (fun hcd => h hcd.symm)]
      · rw [if_neg he]
        simp only [lookupVar]
        by_cases hed : e = d
        · rw [if_pos hed, if_pos hed]
        · rw [if_neg hed, if_neg hed, ih]

/-- `setVar` to a letter already present keeps the key list identical. -/
theorem setVar_keys_of_mem {vs : List (Char × Int)} {c : Char} {v : Int}
    (h : c ∈ vs.map Prod.fst) :
    (setVar vs c v).map Prod.fst = vs.map Prod.fst := by
  induction vs with
  | nil => simp at h
  | cons p rest ih =>
      obtain ⟨e, w⟩ := p
      by_cases he : e = c
      · subst he
        simp [setVar]
      · simp only [List.map_cons] at h
        rw [List.mem_cons] at h
        have hc : c ∈ rest.map Prod.fst := h.resolve_left (fun hce => he hce.symm)
        simp [setVar, he, ih hc]

/-- The updated letter's register holds the assigned value. -/
theorem lookupVar_setVar_self {vs : List (Char × Int)} {c : Char} {v : Int} :
    lookupVar (setVar vs c v) c = some v := by
  induction vs with
  | nil => simp [setVar, lookupVar]
  | cons p rest ih =>
      obtain ⟨e, w⟩ := p
      by_cases he : e = c
      · subst he
        simp [setVar, lookupVar]
      · simp [setVar, he, lookupVar, ih]


/-- A successful bind just applies the continuation. -/
theorem okBind {α β : Type} {a : α} {f : α → Except String β} :
    (Except.ok a >>= f : Except String β) = f a := rfl

/-- `accept` on a matching current token advances. -/
theorem accept_of {k : TokenType} {s : Interp} (h : s.curKind = k) :
    accept k s = Except.ok s.adv := by
  unfold accept
  rw [if_pos h]

theorem skipToEolAux_toks : ∀ n : Nat, ∀ t : Tokenizer,
    (skipToEolAux n t).toks = t.toks := by
  intro n
  induction n with
  | zero => intro t; rfl
  | succ n ih =>
      intro t
      unfold skipToEolAux
      split_ifs <;> first | rfl | exact ih t.adv

theorem skipPastLine_toks {t : Tokenizer} : (skipPastLine t).toks = t.toks := by
  simp only [skipPastLine]
  split_ifs <;> simp [Tokenizer.adv, skipToEolAux_toks]

theorem skipEolsAux_toks : ∀ n : Nat, ∀ t : Tokenizer,
    (skipEolsAux n t).toks = t.toks := by
  intro n
  induction n with
  | zero => intro t; rfl
  | succ n ih =>
      intro t
      unfold skipEolsAux
      split_ifs <;> first | rfl | exact ih t.adv

theorem skipEols_toks {t : Tokenizer} : (skipEols t).toks = t.toks :=
  skipEolsAux_toks _ t

theorem ftlAux_toks : ∀ n : Nat, ∀ ln : Int, ∀ t : Tokenizer,
    (ftlAux n ln t).2.toks = t.toks := by
  intro n
  induction n with
  | zero => intro ln t; rfl
  | succ n ih =>
      intro ln t
      unfold ftlAux
      split_ifs <;>
        first
        | rfl
        | exact (ih ln (skipPastLine t)).trans skipPastLine_toks

theorem find_target_line_toks {ln : Int} {t : Tokenizer} :
    (find_target_line ln t).2.toks = t.toks := ftlAux_toks _ ln t

/-- A current token whose kind is not `EOF_TOKEN` belongs to the
stream. -/
theorem cur_mem_of_kind {t : Tokenizer} (h : t.currentKind ≠ TokenType.EOF_TOKEN) :
    t.cur ∈ t.toks := by
  unfold Tokenizer.currentKind Tokenizer.cur at *
  rw [List.getD_eq_getElem?_getD] at *
  cases hg : t.toks[t.pos]? with
  | none => rw [hg] at h; exact absurd rfl h
  | some tk =>
      simp only [Option.getD_some]
      exact List.mem_iff_getElem?.mpr ⟨t.pos, hg⟩

/-- Interpreter state over a token list with every unrelated component at
its initial value. -/
def mkS (l : List Tok) (p : Nat) : Interp :=
  { tok := ⟨l, p⟩,
    vars := initialVars,
    linePos := [],
    executionFinished := false,
    skipToLine := false,
    targetLine := -1,
    outS := "",
    warns := [] }

/-- `mkS` with a chosen Line Index. -/
def mkSL (l : List Tok) (p : Nat) (lp : List Int) : Interp :=
  { mkS l p with linePos := lp }

/-- A number token followed by the raw character `p`. -/
def numT (n : Int) (p : Option Char) : Tok := ⟨TokenType.NUMBER, n, ' ', "", p⟩

/-- A keyword/operator token. -/
def kwT (k : TokenType) : Tok := ⟨k, 0, ' ', "", some ' '⟩

/-- A string-literal token. -/
def strT (st : String) : Tok := ⟨TokenType.STRING, 0, ' ', st, some ' '⟩

/-- A letter (variable) token. -/
def letT (c : Char) : Tok := ⟨TokenType.LETTER, 0, c, "", some ' '⟩

/-- Output text of a successful run. -/
def outOf : Except String Interp → Option String
  | Except.ok s => some s.outS
  | Except.error _ => none


/-- The divisor token list for the division claims. -/
def divToks (a b : Int) : List Tok :=
  [numT a (some 'x'), kwT TokenType.SLASH, numT b (some 'x')]

/-- Claim C3: for all integers n and d, dividing n by d yields truncating
integer division when d is non-zero; when d is zero the result is exactly
0 with exactly one warning diagnostic recorded, and evaluation continues
normally (the term evaluator returns a value rather than an error). -/
theorem claim_C3 :
    (∀ a b : Int, ∀ s : Interp,
        (b ≠ 0 → safe_divide a b s = (Int.tdiv a b, s)) ∧
        (b = 0 → safe_divide a b s = (0, warn "*warning: divide by zero" s))) ∧
    (∀ a b : Int,
        (b ≠ 0 → term 9 (mkS (divToks a b) 0) =
          Except.ok (Int.tdiv a b, mkS (divToks a b) 3)) ∧
        (b = 0 → term 9 (mkS (divToks a b) 0) =
          Except.ok (0, { mkS (divToks a b) 3 with
            warns := ["*warning: divide by zero"] }))) := by
  constructor
  · intro a b s
    constructor <;> intro hb
    · unfold safe_divide
      rw [if_neg hb]
    · unfold safe_divide
      rw [if_pos hb]
  · intro a b
    constructor <;> intro hb
    · simp [term, factor, termLoop, safe_divide, hb, divToks, mkS, numT, kwT,
        Interp.curKind, Interp.adv, Tokenizer.currentKind, Tokenizer.cur,
        Tokenizer.getNum, Tokenizer.adv, eofTok, Bind.bind, Except.bind]
    · subst hb
      rfl

/-- Claim C3, witness: 7 divided by 2 truncates to 3 without warning, and
7 divided by 0 evaluates to 0 with exactly one warning. -/
theorem claim_C3_witness :
    safe_divide 7 2 (mkS [] 0) = (3, mkS [] 0) ∧
    term 9 (mkS (divToks 7 0) 0) =
      Except.ok (0, { mkS (divToks 7 0) 3 with
        warns := ["*warning: divide by zero"] }) := by
  constructor
  · have h := (claim_C3.1 7 2 (mkS [] 0)).1 (by decide)
    rw [h]
    rfl
  · exact (claim_C3.2 7 0).2 rfl

/-- The comparison token list for the relation witness. -/
def c5Toks : List Tok :=
  [numT 1 (some '<'), kwT TokenType.LT, numT 2 (some 'x')]

/-- Claim C5: `relation` returns exactly 1 or 0; with a comparison
operator after the first expression it returns 1 iff the comparison
holds between the two expression values, and with no comparison operator
it returns 1 iff the single expression's value is non-zero. -/
theorem claim_C5 : ∀ n : Nat, ∀ s s1 : Interp, ∀ l : Int,
    expression n s = Except.ok (l, s1) →
    (s1.curKind = TokenType.EQUAL → ∀ r2 : Int, ∀ s2 : Interp,
        expression n s1.adv = Except.ok (r2, s2) →
        relation n s = Except.ok (if l = r2 then 1 else 0, s2)) ∧
    (s1.curKind = TokenType.LT → ∀ r2 : Int, ∀ s2 : Interp,
        expression n s1.adv = Except.ok (r2, s2) →
        relation n s = Except.ok (if l < r2 then 1 else 0, s2)) ∧
    (s1.curKind = TokenType.GT → ∀ r2 : Int, ∀ s2 : Interp,
        expression n s1.adv = Except.ok (r2, s2) →
        relation n s = Except.ok (if l > r2 then 1 else 0, s2)) ∧
    (s1.curKind = TokenType.LT_EQ → ∀ r2 : Int, ∀ s2 : Interp,
        expression n s1.adv = Except.ok (r2, s2) →
        relation n s = Except.ok (if l ≤ r2 then 1 else 0, s2)) ∧
    (s1.curKind = TokenType.GT_EQ → ∀ r2 : Int, ∀ s2 : Interp,
        expression n s1.adv = Except.ok (r2, s2) →
        relation n s = Except.ok (if l ≥ r2 then 1 else 0, s2)) ∧
    (s1.curKind = TokenType.NOT_EQUAL → ∀ r2 : Int, ∀ s2 : Interp,
        expression n s1.adv = Except.ok (r2, s2) →
        relation n s = Except.ok (if l ≠ r2 then 1 else 0, s2)) ∧
    (s1.curKind ≠ TokenType.EQUAL → s1.curKind ≠ TokenType.LT →
        s1.curKind ≠ TokenType.GT → s1.curKind ≠ TokenType.LT_EQ →
        s1.curKind ≠ TokenType.GT_EQ → s1.curKind ≠ TokenType.NOT_EQUAL →
        relation n s = Except.ok (if l ≠ 0 then 1 else 0, s1)) ∧
    (∀ v : Int, ∀ s2 : Interp, relation n s = Except.ok (v, s2) → v = 0 ∨ v = 1) := by
  intro n s s1 l h
  refine ⟨?_, ?_, ?_, ?_, ?_, ?_, ?_, ?_⟩
  · intro hk r2 s2 hr2
    unfold relation
    rw [h, okBind]
    dsimp only
    rw [if_pos hk, hr2, okBind]
  · intro hk r2 s2 hr2
    unfold relation
    rw [h, okBind]
    dsimp only
    rw [if_neg (by rw [hk]; intro hx; cases hx), if_pos hk, hr2, okBind]
  · intro hk r2 s2 hr2
    unfold relation
    rw [h, okBind]
    dsimp only
    rw [if_neg (by rw [hk]; intro hx; cases hx),
      if_neg (by rw [hk]; intro hx; cases hx), if_pos hk, hr2, okBind]
  · intro hk r2 s2 hr2
    unfold relation
    rw [h, okBind]
    dsimp only
    rw [if_neg (by rw [hk]; intro hx; cases hx),
      if_neg (by rw [hk]; intro hx; cases hx),
      if_neg (by rw [hk]; intro hx; cases hx), if_pos hk, hr2, okBind]
  · intro hk r2 s2 hr2
    unfold relation
    rw [h, okBind]
    dsimp only
    rw [if_neg (by rw [hk]; intro hx; cases hx),
      if_neg (by rw [hk]; intro hx; cases hx),
      if_neg (by rw [hk]; intro hx; cases hx),
      if_neg (by rw [hk]; intro hx; cases hx), if_pos hk, hr2, okBind]
  · intro hk r2 s2 hr2
    unfold relation
    rw [h, okBind]
    dsimp only
    rw [if_neg (by rw [hk]; intro hx; cases hx),
      if_neg (by rw [hk]; intro hx; cases hx),
      if_neg (by rw [hk]; intro hx; cases hx),
      if_neg (by rw [hk]; intro hx; cases hx),
      if_neg (by rw [hk]; intro hx; cases hx), if_pos hk, hr2, okBind]
  · intro h1 h2 h3 h4 h5 h6
    unfold relation
    rw [h, okBind]
    dsimp only
    rw [if_neg h1, if_neg h2, if_neg h3, if_neg h4, if_neg h5, if_neg h6]
  · intro v s2 hrel
    have := relation_01 hrel
    exact this

/-- Claim C5, witness: `1 < 2` evaluates to 1 through `relation`. -/
theorem claim_C5_witness :
    relation 9 (mkS c5Toks 0) = Except.ok (1, mkS c5Toks 3) := by
  have h := (claim_C5 9 (mkS c5Toks 0) (mkS c5Toks 1) 1 rfl).2.1 rfl 2
    (mkS c5Toks 3) rfl
  rw [if_pos (show (1 : Int) < 2 by decide)] at h
  exact h

/-- The assignment token list for the frame-effect claims. -/
def c10Toks : List Tok := [letT 'B', kwT TokenType.EQUAL, numT 7 (some 'x')]

/-- The state produced by executing the witness assignment. -/
def c10Res : Interp := { mkS c10Toks 3 with vars := setVar initialVars 'b' 7 }

/-- Claim C10: an executed assignment statement can change only the
register of the lowercase-folded target letter; every other register, the
Line Index membership set and the finished flag are unchanged. -/
theorem claim_C10 : ∀ n : Nat, ∀ s s1 : Interp,
    let_statement n s = Except.ok s1 →
    (∀ d : Char, d ≠ cppToLower s.tok.getCh →
        readVar s1.vars d = readVar s.vars d) ∧
    s1.linePos = s.linePos ∧ s1.executionFinished = s.executionFinished := by
  intro n s s1 h
  unfold let_statement at h
  split_ifs at h with hk
  rw [bindOk] at h
  obtain ⟨sa, hsa, h⟩ := h
  rw [bindOk] at h
  obtain ⟨r, hr, h⟩ := h
  obtain rfl := Except.ok.inj h
  obtain ⟨rfl, -⟩ := accept_ok hsa
  obtain ⟨⟨⟨htoks, hvars, hlp, hef, -, -⟩, -⟩, -⟩ := (evalEff n).2.2.2.2 _ _ hr
  have hv : r.2.vars = s.vars := hvars
  have hl : r.2.linePos = s.linePos := hlp
  have he : r.2.executionFinished = s.executionFinished := hef
  refine ⟨?_, hl, he⟩
  intro d hd
  show readVar (setVar r.2.vars (cppToLower s.tok.getCh) r.1) d = readVar s.vars d
  unfold readVar
  rw [lookupVar_setVar_ne hd, hv]

/-- Claim C10, witness: after `B = 7`, the register `c` still reads 0,
and the Line Index and finished flag are untouched. -/
theorem claim_C10_witness :
    readVar c10Res.vars 'c' = 0 ∧ c10Res.linePos = [] ∧
    c10Res.executionFinished = false := by
  have h := claim_C10 9 (mkS c10Toks 0) c10Res rfl
  refine ⟨?_, h.2.1, h.2.2⟩
  rw [h.1 'c' (by decide)]
  decide

/-- The token list of the C1 counterexample: `5 7`. -/
def c1Toks : List Tok := [numT 5 (some ' '), numT 7 (some ' ')]

/-- The token list of the C1 witness: `5 20` with a newline after 20. -/
def c1wToks : List Tok := [numT 5 (some ' '), numT 20 (some '\n')]

/-- Claim C1, counterexample: after the first term of `5 7`, the next
token is a number literal that fails the line-number heuristic, yet
`expression` still stops and returns the term's value without consuming
it — refuting the claimed "if and only if". -/
theorem counterexample_C1 :
    expression 9 (mkS c1Toks 0) = Except.ok (5, mkS c1Toks 1) ∧
    (mkS c1Toks 1).curKind = TokenType.NUMBER ∧
    is_valid_line_number (mkS c1Toks 1).tok (mkS c1Toks 1).tok.getNum = false :=
  ⟨rfl, rfl, rfl⟩

/-- Claim C1 (as amended): immediately after the first term, if the next
token is a number literal satisfying the line-number heuristic,
`expression` stops and returns the term's value without consuming it;
and line-index construction records a number exactly under the same
predicate (a NUMBER token passing `is_valid_line_number`). -/
theorem claim_C1 :
    (∀ n : Nat, ∀ s s1 : Interp, ∀ v : Int,
        term n s = Except.ok (v, s1) →
        s1.curKind = TokenType.NUMBER →
        is_valid_line_number s1.tok s1.tok.getNum = true →
        expression (n + 1) s = Except.ok (v, s1)) ∧
    (∀ n : Nat, ∀ t : Tokenizer, ∀ acc : List Int,
        t.finished = false →
        buildAux (n + 1) t acc =
          buildAux n t.adv
            (if t.currentKind = TokenType.NUMBER ∧
                is_valid_line_number t t.getNum then
              (if t.getNum ∈ acc then acc else acc ++ [t.getNum])
            else acc)) := by
  constructor
  · intro n s s1 v hterm hk hv
    unfold expression
    rw [hterm, okBind]
    dsimp only
    rw [if_pos ⟨hk, hv⟩]
  · intro n t acc hf
    conv_lhs => rw [buildAux]
    rw [if_neg (by simp [hf])]

/-- Claim C1, witness: after the term `5`, the number `20` followed by a
newline satisfies the heuristic, so `expression` stops without consuming
it; and the index-construction step applies the same predicate. -/
theorem claim_C1_witness :
    expression 9 (mkS c1wToks 0) = Except.ok (5, mkS c1wToks 1) ∧
    buildAux 2 ⟨c1wToks, 0⟩ [] = buildAux 1 (Tokenizer.adv ⟨c1wToks, 0⟩) [] := by
  constructor
  · exact claim_C1.1 8 (mkS c1wToks 0) (mkS c1wToks 1) 5 rfl rfl rfl
  · rw [claim_C1.2 1 ⟨c1wToks, 0⟩ [] rfl]
    decide


/-- Claim C4: in `IF relation THEN number`, the target number token is
consumed unconditionally regardless of the relation's truth value; a true
relation performs the jump to that line, and a false one continues with
the next statement, consuming a trailing end-of-line token when
present. -/
theorem claim_C4 : ∀ n : Nat, ∀ s s2 : Interp, ∀ c : Int,
    s.curKind = TokenType.IF →
    relation n s.adv = Except.ok (c, s2) →
    s2.curKind = TokenType.THEN →
    (s2.adv).curKind = TokenType.NUMBER →
    (c = 0 → if_statement n s =
        Except.ok (if ((s2.adv).adv).curKind = TokenType.EOL
          then ((s2.adv).adv).adv else (s2.adv).adv)) ∧
    (c ≠ 0 →
        ((s2.adv).tok.getNum ∉ s2.linePos →
          if_statement n s = Except.error (rtMsg (s2.adv).tok.getNum)) ∧
        (∀ t1 : Tokenizer, (s2.adv).tok.getNum ∈ s2.linePos →
          find_target_line (s2.adv).tok.getNum ((s2.adv).adv).tok.reset =
            (true, t1) →
          if_statement n s = Except.ok { (s2.adv).adv with tok := t1 })) := by
  intro n s s2 c hIF hrel hthen hnum
  have hacc1 : accept TokenType.IF s = Except.ok s.adv := accept_of hIF
  have hacc2 : accept TokenType.THEN s2 = Except.ok s2.adv := accept_of hthen
  constructor
  · intro hc
    subst hc
    unfold if_statement
    rw [hacc1, okBind, hrel, okBind]
    try dsimp only
    rw [hacc2, okBind]
    try dsimp only
    rw [if_pos hnum, if_neg (by simp)]
    exact (apply_ite Except.ok _ _ _).symm
  · intro hc
    constructor
    · intro hmem
      have hmem2 : (s2.adv).tok.getNum ∉ ((s2.adv).adv).linePos := hmem
      unfold if_statement
      rw [hacc1, okBind, hrel, okBind]
      try dsimp only
      rw [hacc2, okBind]
      try dsimp only
      rw [if_pos hnum, if_pos hc, if_neg hmem2]
    · intro t1 hmem hfind
      have hmem2 : (s2.adv).tok.getNum ∈ ((s2.adv).adv).linePos := hmem
      unfold if_statement
      rw [hacc1, okBind, hrel, okBind]
      try dsimp only
      rw [hacc2, okBind]
      try dsimp only
      rw [if_pos hnum, if_pos hc, if_pos hmem2, hfind]

/-- The token list of the C4 witness: `IF 1 = 2 THEN 30` then an
end-of-line and a further statement token. -/
def ifToks : List Tok :=
  [kwT TokenType.IF, numT 1 (some '='), kwT TokenType.EQUAL,
   numT 2 (some ' '), kwT TokenType.THEN, numT 30 (some '\n'),
   kwT TokenType.EOL, kwT TokenType.PRINT]

/-- Claim C4, witness: `IF 1 = 2 THEN 30` is false, the target token 30
and the trailing end-of-line are both consumed, and execution continues
at the following statement token. -/
theorem claim_C4_witness :
    if_statement 9 (mkS ifToks 0) = Except.ok (mkS ifToks 7) := by
  have h := (claim_C4 9 (mkS ifToks 0) (mkS ifToks 4) 0 rfl rfl rfl rfl).1 rfl
  exact h.trans rfl

/-- Claim C2: a GOTO, or a taken IF…THEN, whose target line is absent
from the Line Index raises the reported runtime error (never silently
continuing); when the target is present but the reset-and-rescan pass
reaches end-of-stream without finding it, the distinct internal error is
raised instead. -/
theorem claim_C2 :
    (∀ s : Interp, ∀ t1 : Tokenizer,
        s.curKind = TokenType.GOTO →
        (s.adv).curKind = TokenType.NUMBER →
        ((s.adv).adv).curKind = TokenType.EOL →
        ((s.adv).tok.getNum ∉ s.linePos →
          goto_statement s = Except.error (rtMsg (s.adv).tok.getNum)) ∧
        ((s.adv).tok.getNum ∈ s.linePos →
          find_target_line (s.adv).tok.getNum (((s.adv).adv).adv).tok.reset =
            (false, t1) →
          goto_statement s = Except.error (intMsg (s.adv).tok.getNum))) ∧
    (∀ n : Nat, ∀ s s2 : Interp, ∀ c : Int, ∀ t1 : Tokenizer,
        s.curKind = TokenType.IF →
        relation n s.adv = Except.ok (c, s2) →
        s2.curKind = TokenType.THEN →
        (s2.adv).curKind = TokenType.NUMBER →
        c ≠ 0 →
        ((s2.adv).tok.getNum ∉ s2.linePos →
          if_statement n s = Except.error (rtMsg (s2.adv).tok.getNum)) ∧
        ((s2.adv).tok.getNum ∈ s2.linePos →
          find_target_line (s2.adv).tok.getNum ((s2.adv).adv).tok.reset =
            (false, t1) →
          if_statement n s = Except.error (intMsg (s2.adv).tok.getNum))) ∧
    (∀ ln : Int, rtMsg ln ≠ intMsg ln) := by
  refine ⟨?_, ?_, ?_⟩
  · intro s t1 hg hn he
    have hacc1 : accept TokenType.GOTO s = Except.ok s.adv := accept_of hg
    have hacc2 : accept TokenType.NUMBER s.adv = Except.ok (s.adv).adv :=
      accept_of hn
    have hacc3 : accept TokenType.EOL ((s.adv).adv) =
        Except.ok (((s.adv).adv).adv) := accept_of he
    constructor
    · intro hmem
      have hmem2 : (s.adv).tok.getNum ∉ (((s.adv).adv).adv).linePos := hmem
      unfold goto_statement
      rw [hacc1, okBind]
      try dsimp only
      rw [hacc2, okBind, hacc3, okBind]
      rw [if_neg hmem2]
    · intro hmem hfind
      have hmem2 : (s.adv).tok.getNum ∈ (((s.adv).adv).adv).linePos := hmem
      unfold goto_statement
      rw [hacc1, okBind]
      try dsimp only
      rw [hacc2, okBind, hacc3, okBind]
      rw [if_pos hmem2, hfind]
  · intro n s s2 c t1 hIF hrel hthen hnum hc
    have hacc1 : accept TokenType.IF s = Except.ok s.adv := accept_of hIF
    have hacc2 : accept TokenType.THEN s2 = Except.ok s2.adv := accept_of hthen
    constructor
    · intro hmem
      have hmem2 : (s2.adv).tok.getNum ∉ ((s2.adv).adv).linePos := hmem
      unfold if_statement
      rw [hacc1, okBind, hrel, okBind]
      try dsimp only
      rw [hacc2, okBind]
      try dsimp only
      rw [if_pos hnum, if_pos hc, if_neg hmem2]
    · intro hmem hfind
      have hmem2 : (s2.adv).tok.getNum ∈ ((s2.adv).adv).linePos := hmem
      unfold if_statement
      rw [hacc1, okBind, hrel, okBind]
      try dsimp only
      rw [hacc2, okBind]
      try dsimp only
      rw [if_pos hnum, if_pos hc, if_pos hmem2, hfind]
  · intro ln h
    have h1 : (rtMsg ln).length = 37 + (toString ln).length := by
      unfold rtMsg
      rw [String.length_append, String.length_append]
      have e1 : ("Runtime Error: Line number " : String).length = 27 := by decide
      have e2 : (" not found" : String).length = 10 := by decide
      omega
    have h2 : (intMsg ln).length = 49 + (toString ln).length := by
      unfold intMsg
      rw [String.length_append]
      have e1 :
          ("Internal Error: Failed to find valid line number " : String).length
            = 49 := by decide
      omega
    have h3 := congrArg String.length h
    omega

/-- The token list of the C2 witness: `GOTO 20` and an end-of-line, with
no line 20 anywhere in the stream. -/
def c2Toks : List Tok :=
  [kwT TokenType.GOTO, numT 20 (some '\n'), kwT TokenType.EOL]

/-- Claim C2, witness: with 20 absent from the Line Index the runtime
error is raised; with 20 wrongly present in the index but absent from
the stream, the rescan fails and the distinct internal error is
raised. -/
theorem claim_C2_witness :
    goto_statement (mkSL c2Toks 0 []) = Except.error (rtMsg 20) ∧
    goto_statement (mkSL c2Toks 0 [20]) = Except.error (intMsg 20) ∧
    rtMsg 20 ≠ intMsg 20 := by
  refine ⟨?_, ?_, claim_C2.2.2 20⟩
  · exact (claim_C2.1 (mkSL c2Toks 0 []) ⟨c2Toks, 3⟩ rfl rfl rfl).1 (by decide)
  · exact (claim_C2.1 (mkSL c2Toks 0 [20]) ⟨c2Toks, 3⟩ rfl rfl rfl).2
      (by decide) rfl


/-- Once the tokenizer is finished, the current token is the EOF
token. -/
theorem finished_kind {t : Tokenizer} (h : t.finished = true) :
    t.currentKind = TokenType.EOF_TOKEN := by
  unfold Tokenizer.finished at h
  unfold Tokenizer.currentKind Tokenizer.cur
  rw [List.getD_eq_getElem?_getD, List.getElem?_eq_none (by exact of_decide_eq_true h)]
  rfl

/-- The tokens for the C6 counterexample: `PRINT` followed by a stray
`THEN`. -/
def c6Toks : List Tok := [kwT TokenType.PRINT, kwT TokenType.THEN]

/-- The state at which the C6 counterexample's print statement ends. -/
def c6Res : Interp := { mkS c6Toks 1 with outS := "\n" }

/-- Claim C6, counterexample: the print item loop also stops, without
consuming, at the unrecognized token `THEN`, which is neither
end-of-line, end-of-file, nor a number satisfying the heuristic —
refuting the claimed "exactly when". -/
theorem counterexample_C6 :
    print_statement 5 (mkS c6Toks 0) = Except.ok c6Res ∧
    (mkS c6Toks 1).curKind = TokenType.THEN ∧
    is_statement_end TokenType.THEN = false ∧
    is_line_number (mkS c6Toks 1).tok = false := ⟨rfl, rfl, rfl, rfl⟩

/-- Claim C6 (as amended): the print item loop returns its state
unchanged exactly when the current token is end-of-line/end-of-file, a
number satisfying the end-of-stream-insensitive heuristic variant, or
any token that is not a printable item or separator; in the line-number
case the statement consumes nothing further (no trailing end-of-line),
only appending the newline; and the weak heuristic variant rejects an
exhausted stream. -/
theorem claim_C6 :
    (∀ n : Nat, ∀ ns : Bool, ∀ s : Interp,
        is_statement_end s.curKind = true ∨ is_line_number s.tok = true ∨
          printItemKind s.curKind = false →
        printLoop (n + 1) ns s = Except.ok s) ∧
    (∀ n : Nat, ∀ ns : Bool, ∀ s : Interp,
        is_statement_end s.curKind = false → is_line_number s.tok = false →
        printItemKind s.curKind = true →
        printLoop (n + 1) ns s ≠ Except.ok s) ∧
    (∀ n : Nat, ∀ s s2 : Interp,
        s.curKind = TokenType.PRINT →
        printLoop n false s.adv = Except.ok s2 →
        is_line_number s2.tok = true →
        print_statement n s = Except.ok { s2 with outS := s2.outS ++ "\n" }) ∧
    (∀ t : Tokenizer, t.peekChar = none → is_line_number t = false) := by
  refine ⟨?_, ?_, ?_, ?_⟩
  · intro n ns s hstop
    unfold printLoop
    split_ifs with h1 h2 h3 h4 h5 h6
    any_goals rfl
    · rcases hstop with h | h | h
      · exact absurd h h2
      · exact absurd h h3
      · simp [printItemKind, h4] at h
    · rcases hstop with h | h | h
      · exact absurd h h2
      · exact absurd h h3
      · simp [printItemKind, h5] at h
    · rcases hstop with h | h | h
      · exact absurd h h2
      · exact absurd h h3
      · rcases h6 with h6 | h6 | h6 <;> simp [printItemKind, h6] at h
  · intro n ns s h1 h2 h3 heq
    have hf : ¬ s.tok.finished = true := by
      intro hfin
      rw [show s.curKind = TokenType.EOF_TOKEN from finished_kind hfin] at h1
      cases h1
    unfold printLoop at heq
    rw [if_neg hf, if_neg (by simp [h1]), if_neg (by simp [h2])] at heq
    split_ifs at heq with h4 h5 h6
    · obtain ⟨-, hp⟩ := printLoop_eff _ _ _ _ heq
      simp only [adv_pos] at hp
      omega
    · obtain ⟨-, hp⟩ := printLoop_eff _ _ _ _ heq
      simp only [adv_pos] at hp
      omega
    · rw [bindOk] at heq
      obtain ⟨r1, hr1, hpl⟩ := heq
      obtain ⟨-, hp1⟩ := (evalEff n).2.2.2.2 _ _ hr1
      obtain ⟨-, hp⟩ := printLoop_eff _ _ _ _ hpl
      have hp1n : s.tok.pos < r1.2.tok.pos := hp1
      have hpn : r1.2.tok.pos ≤ s.tok.pos := hp
      omega
    · simp only [printItemKind] at h3
      rcases of_decide_eq_true h3 with h | h | h | h | h
      · exact h4 h
      · exact h5 h
      · exact h6 (Or.inl h)
      · exact h6 (Or.inr (Or.inl h))
      · exact h6 (Or.inr (Or.inr h))
  · intro n s s2 hk hloop hln
    have hacc : accept TokenType.PRINT s = Except.ok s.adv := accept_of hk
    have hln2 : is_line_number ({ s2 with outS := s2.outS ++ "\n" }).tok = true := hln
    unfold print_statement
    rw [hacc, okBind, hloop, okBind]
    dsimp only
    rw [if_pos hln2]
  · intro t h
    unfold is_line_number
    split_ifs <;> simp [h]

/-- The tokens for the C6 witness: `PRINT 5` then the line number 20. -/
def c6wToks : List Tok :=
  [kwT TokenType.PRINT, numT 5 (some ' '), numT 20 (some '\n'),
   kwT TokenType.EOL, numT 1 (some ' ')]

/-- Claim C6, witness: the loop stops unchanged at the heuristic number
20, and the print statement then leaves both the 20 and the trailing
end-of-line unconsumed. -/
theorem claim_C6_witness :
    printLoop 3 false (mkS c6wToks 2) = Except.ok (mkS c6wToks 2) ∧
    print_statement 5 (mkS c6wToks 0) =
      Except.ok { mkS c6wToks 2 with outS := "5\n" } := by
  constructor
  · exact claim_C6.1 2 false (mkS c6wToks 2) (Or.inr (Or.inl rfl))
  · exact claim_C6.2.2.1 5 (mkS c6wToks 0)
      { mkS c6wToks 2 with outS := "5" } rfl rfl rfl


/-- The token stream of the program `10 PRINT "HI" 5`. -/
def hi5Toks : List Tok :=
  [numT 10 (some ' '), kwT TokenType.PRINT, strT "HI", numT 5 none]

/-- A single string item for the C7 witness. -/
def c7Toks : List Tok := [strT "A", kwT TokenType.EOL]

/-- Claim C7: exactly one space separates consecutively emitted print
items not split by an explicit separator (`need_space` discipline: a
processed item passes `need_space = true` on, a separator resets it while
emitting exactly one space regardless of the spacing state), the program
`10 PRINT "HI" 5` emits `HI 5`, and after the item loop exactly one
newline is always emitted. -/
theorem claim_C7 :
    (padS true = " " ∧ padS false = "") ∧
    (∀ n : Nat, ∀ ns : Bool, ∀ s : Interp,
        s.tok.finished = false → is_statement_end s.curKind = false →
        is_line_number s.tok = false → s.curKind = TokenType.STRING →
        printLoop (n + 1) ns s =
          printLoop n true
            { s.adv with outS := s.outS ++ padS ns ++ s.tok.getStr }) ∧
    (∀ n : Nat, ∀ ns : Bool, ∀ s : Interp,
        s.tok.finished = false → is_statement_end s.curKind = false →
        is_line_number s.tok = false → s.curKind = TokenType.SEPARATOR →
        printLoop (n + 1) ns s =
          printLoop n false { s.adv with outS := s.outS ++ " " }) ∧
    (∀ n : Nat, ∀ ns : Bool, ∀ s s1 : Interp, ∀ v : Int,
        s.tok.finished = false → is_statement_end s.curKind = false →
        is_line_number s.tok = false →
        (s.curKind = TokenType.LETTER ∨ s.curKind = TokenType.NUMBER ∨
          s.curKind = TokenType.LEFT_PAREN) →
        expression n { s with outS := s.outS ++ padS ns } = Except.ok (v, s1) →
        printLoop (n + 1) ns s =
          printLoop n true { s1 with outS := s1.outS ++ toString v }) ∧
    (∀ n : Nat, ∀ s s2 : Interp,
        s.curKind = TokenType.PRINT →
        printLoop n false s.adv = Except.ok s2 →
        ∃ s3 : Interp, print_statement n s = Except.ok s3 ∧
          s3.outS = s2.outS ++ "\n") ∧
    outOf (run 20 (initInterp hi5Toks)) = some "HI 5\n" := by
  refine ⟨⟨rfl, rfl⟩, ?_, ?_, ?_, ?_, rfl⟩
  · intro n ns s hf h1 h2 hk
    conv_lhs => rw [printLoop]
    rw [if_neg (by simp [hf]), if_neg (by simp [h1]), if_neg (by simp [h2]),
      if_pos hk]
  · intro n ns s hf h1 h2 hk
    conv_lhs => rw [printLoop]
    rw [if_neg (by simp [hf]), if_neg (by simp [h1]), if_neg (by simp [h2]),
      if_neg (by rw [hk]; intro hx; cases hx), if_pos hk]
  · intro n ns s s1 v hf h1 h2 hk hexp
    conv_lhs => rw [printLoop]
    rw [if_neg (by simp [hf]), if_neg (by simp [h1]), if_neg (by simp [h2]),
      if_neg (by rcases hk with h | h | h <;> rw [h] <;> intro hx <;> cases hx),
      if_neg (by rcases hk with h | h | h <;> rw [h] <;> intro hx <;> cases hx),
      if_pos hk, hexp, okBind]
  · intro n s s2 hk hloop
    have hacc : accept TokenType.PRINT s = Except.ok s.adv := accept_of hk
    unfold print_statement
    rw [hacc, okBind, hloop, okBind]
    dsimp only
    split_ifs <;> exact ⟨_, rfl, rfl⟩

/-- Claim C7, witness: a string item emitted with `need_space` set is
preceded by exactly one space, and the `10 PRINT "HI" 5` scenario prints
the line `HI 5`. -/
theorem claim_C7_witness :
    printLoop 3 true (mkS c7Toks 0) =
      printLoop 2 true { mkS c7Toks 1 with outS := " A" } ∧
    outOf (run 20 (initInterp hi5Toks)) = some "HI 5\n" := by
  constructor
  · exact claim_C7.2.1 2 true (mkS c7Toks 0) rfl rfl rfl rfl
  · exact claim_C7.2.2.2.2.2


/-- The tokens of the C9 stream: `GOTO 20` on one line, then line
`20 PRINT 1`. -/
def c9Toks : List Tok :=
  [kwT TokenType.GOTO, numT 20 (some '\n'), kwT TokenType.EOL,
   numT 20 (some ' '), kwT TokenType.PRINT, numT 1 none]

/-- The state reached by a successful `GOTO 20` over `c9Toks`. -/
def c9Res : Interp := mkSL c9Toks 4 [20]

/-- Claim C9, counterexample: a GOTO executed while the Line Index is
empty performs its existence check against the empty index and raises
the runtime error without rebuilding, even though rebuilding the index
from the same stream would contain the target line 20. -/
theorem counterexample_C9 :
    goto_statement (mkSL c9Toks 0 []) = Except.error (rtMsg 20) ∧
    (20 : Int) ∈ (build_line_map (mkSL c9Toks 0 [])).linePos := ⟨rfl, by decide⟩

/-- Claim C9 (as amended): the Line Index is built exactly once at the
start of `run`; the jump statements `GOTO` and `IF…THEN` never modify
(in particular never rebuild) the index; only the auxiliary entry point
`jump_linenum` rebuilds it lazily when found empty — and it performs no
index existence check, scanning the stream directly. -/
theorem claim_C9 :
    (∀ n : Nat, ∀ s : Interp, run n s = runLoop n (build_line_map s)) ∧
    (∀ s s1 : Interp, goto_statement s = Except.ok s1 →
        s1.linePos = s.linePos) ∧
    (∀ n : Nat, ∀ s s1 : Interp, if_statement n s = Except.ok s1 →
        s1.linePos = s.linePos) ∧
    (∀ ln : Int, ∀ s : Interp, s.linePos = [] →
        jump_linenum ln s =
          (match jumpScan ln (build_line_map s).tok.reset with
            | some t1 => Except.ok { build_line_map s with tok := t1 }
            | none => Except.error (rtMsg ln))) ∧
    (∀ ln : Int, ∀ s : Interp, s.linePos ≠ [] →
        jump_linenum ln s =
          (match jumpScan ln s.tok.reset with
            | some t1 => Except.ok { s with tok := t1 }
            | none => Except.error (rtMsg ln))) := by
  refine ⟨fun n s => rfl, ?_, ?_, ?_, ?_⟩
  · intro s s1 h
    unfold goto_statement at h
    rw [bindOk] at h
    obtain ⟨sa, hsa, h⟩ := h
    obtain ⟨rfl, -⟩ := accept_ok hsa
    rw [bindOk] at h
    obtain ⟨sb, hsb, h⟩ := h
    obtain ⟨rfl, -⟩ := accept_ok hsb
    rw [bindOk] at h
    obtain ⟨sc, hsc, h⟩ := h
    obtain ⟨rfl, -⟩ := accept_ok hsc
    split_ifs at h
    cases hf : find_target_line ((s.adv).tok.getNum)
        ((((s.adv).adv).adv).tok.reset) with
    | mk b t =>
        rw [hf] at h
        cases b
        · cases h
        · obtain rfl := Except.ok.inj h
          rfl
  · intro n s s1 h
    unfold if_statement at h
    rw [bindOk] at h
    obtain ⟨sa, hsa, h⟩ := h
    obtain ⟨rfl, -⟩ := accept_ok hsa
    rw [bindOk] at h
    obtain ⟨r, hrel, h⟩ := h
    rw [bindOk] at h
    obtain ⟨sb, hsb, h⟩ := h
    obtain ⟨rfl, -⟩ := accept_ok hsb
    have hlp : r.2.linePos = s.linePos := (relation_eff hrel).1.2.2.1
    dsimp only at h
    split_ifs at h
    · cases hf : find_target_line ((r.2.adv).tok.getNum)
          (((r.2.adv).adv).tok.reset) with
      | mk b t =>
          rw [hf] at h
          cases b
          · cases h
          · obtain rfl := Except.ok.inj h
            exact hlp
    · obtain rfl := Except.ok.inj h
      exact hlp
    · obtain rfl := Except.ok.inj h
      exact hlp
  · intro ln s h
    simp only [jump_linenum]
    rw [if_pos h]
  · intro ln s h
    simp only [jump_linenum]
    rw [if_neg h]

/-- Claim C9, witness: with a non-empty index `jump_linenum` does not
rebuild, scanning the stream directly; and a successful GOTO leaves the
Line Index untouched. -/
theorem claim_C9_witness :
    jump_linenum 20 (mkSL c9Toks 0 [20]) =
      Except.ok { mkSL c9Toks 0 [20] with tok := ⟨c9Toks, 2⟩ } ∧
    goto_statement (mkSL c9Toks 0 [20]) = Except.ok c9Res ∧
    c9Res.linePos = [20] := by
  refine ⟨?_, rfl, ?_⟩
  · have h := claim_C9.2.2.2.2 20 (mkSL c9Toks 0 [20]) (by decide)
    exact h.trans rfl
  · exact claim_C9.2.1 (mkSL c9Toks 0 [20]) c9Res rfl


/-- The tokenizer-supplied streams considered by the variable-store
claims: every LETTER token folds to one of the 26 store keys. -/
def LettersOK (l : List Tok) : Prop :=
  ∀ tk ∈ l, tk.kind = TokenType.LETTER → cppToLower tk.ch ∈ letterKeys

/-- A store whose values are all zero reads zero everywhere. -/
theorem readVar_zero {vs : List (Char × Int)} {c : Char}
    (h : ∀ p ∈ vs, p.2 = 0) : readVar vs c = 0 := by
  induction vs with
  | nil => rfl
  | cons p rest ih =>
      obtain ⟨e, w⟩ := p
      unfold readVar lookupVar
      split_ifs with he
      · exact h (e, w) (by simp)
      · exact ih (fun q hq => h q (List.mem_cons_of_mem _ hq))

/-- `print_statement` never touches the variable store or the token
list. -/
theorem print_statement_eff {n : Nat} {s s1 : Interp}
    (h : print_statement n s = Except.ok s1) :
    s1.vars = s.vars ∧ s1.tok.toks = s.tok.toks := by
  unfold print_statement at h
  rw [bindOk] at h
  obtain ⟨sa, hsa, h⟩ := h
  obtain ⟨rfl, -⟩ := accept_ok hsa
  rw [bindOk] at h
  obtain ⟨s2, hs2, h⟩ := h
  obtain ⟨⟨htoks, hvars, -, -, -, -⟩, -⟩ := printLoop_eff _ _ _ _ hs2
  have hv : s2.vars = s.vars := hvars
  have ht : s2.tok.toks = s.tok.toks := htoks
  dsimp only at h
  split_ifs at h <;> (obtain rfl := Except.ok.inj h; exact ⟨hv, ht⟩)

/-- `goto_statement` never touches the variable store or the token
list. -/
theorem goto_statement_eff {s s1 : Interp}
    (h : goto_statement s = Except.ok s1) :
    s1.vars = s.vars ∧ s1.tok.toks = s.tok.toks := by
  unfold goto_statement at h
  rw [bindOk] at h
  obtain ⟨sa, hsa, h⟩ := h
  obtain ⟨rfl, -⟩ := accept_ok hsa
  rw [bindOk] at h
  obtain ⟨sb, hsb, h⟩ := h
  obtain ⟨rfl, -⟩ := accept_ok hsb
  rw [bindOk] at h
  obtain ⟨sc, hsc, h⟩ := h
  obtain ⟨rfl, -⟩ := accept_ok hsc
  split_ifs at h
  cases hf : find_target_line ((s.adv).tok.getNum)
      ((((s.adv).adv).adv).tok.reset) with
  | mk b t =>
      rw [hf] at h
      cases b
      · cases h
      · obtain rfl := Except.ok.inj h
        have h1 := @find_target_line_toks (s.adv).tok.getNum
          ((((s.adv).adv).adv).tok.reset)
        rw [hf] at h1
        exact ⟨rfl, h1⟩

/-- `if_statement` never touches the variable store or the token list. -/
theorem if_statement_eff {n : Nat} {s s1 : Interp}
    (h : if_statement n s = Except.ok s1) :
    s1.vars = s.vars ∧ s1.tok.toks = s.tok.toks := by
  unfold if_statement at h
  rw [bindOk] at h
  obtain ⟨sa, hsa, h⟩ := h
  obtain ⟨rfl, -⟩ := accept_ok hsa
  rw [bindOk] at h
  obtain ⟨r, hrel, h⟩ := h
  rw [bindOk] at h
  obtain ⟨sb, hsb, h⟩ := h
  obtain ⟨rfl, -⟩ := accept_ok hsb
  obtain ⟨⟨htoks, hvars, -, -, -, -⟩, -⟩ := relation_eff hrel
  have hv : r.2.vars = s.vars := hvars
  have ht : r.2.tok.toks = s.tok.toks := htoks
  dsimp only at h
  split_ifs at h
  · cases hf : find_target_line ((r.2.adv).tok.getNum)
        (((r.2.adv).adv).tok.reset) with
    | mk b t =>
        rw [hf] at h
        cases b
        · cases h
        · obtain rfl := Except.ok.inj h
          have h1 := @find_target_line_toks (r.2.adv).tok.getNum
            (((r.2.adv).adv).tok.reset)
          rw [hf] at h1
          exact ⟨hv, h1.trans ht⟩
  · obtain rfl := Except.ok.inj h
    exact ⟨hv, ht⟩
  · obtain rfl := Except.ok.inj h
    exact ⟨hv, ht⟩

/-- An executed assignment keeps the 26-letter key list intact (given
that the stream's letters fold into the store keys). -/
theorem let_statement_keys {n : Nat} {s s1 : Interp}
    (h : let_statement n s = Except.ok s1)
    (hL : LettersOK s.tok.toks) (hk : s.vars.map Prod.fst = letterKeys) :
    s1.vars.map Prod.fst = letterKeys ∧ s1.tok.toks = s.tok.toks := by
  unfold let_statement at h
  split_ifs at h with hkL
  rw [bindOk] at h
  obtain ⟨sa, hsa, h⟩ := h
  obtain ⟨rfl, -⟩ := accept_ok hsa
  rw [bindOk] at h
  obtain ⟨r, hr, h⟩ := h
  obtain rfl := Except.ok.inj h
  obtain ⟨⟨⟨htoks, hvars, -, -, -, -⟩, -⟩, -⟩ := (evalEff n).2.2.2.2 _ _ hr
  have hv : r.2.vars = s.vars := hvars
  have ht : r.2.tok.toks = s.tok.toks := htoks
  have hcK : s.tok.currentKind = TokenType.LETTER := hkL
  have hne : s.tok.currentKind ≠ TokenType.EOF_TOKEN := by
    rw [hcK]
    intro hx
    cases hx
  have hcur : s.tok.cur ∈ s.tok.toks := cur_mem_of_kind hne
  have hmem : cppToLower s.tok.getCh ∈ letterKeys := hL s.tok.cur hcur hcK
  have hmem2 : cppToLower s.tok.getCh ∈ r.2.vars.map Prod.fst := by
    rw [hv, hk]
    exact hmem
  constructor
  · show (setVar r.2.vars (cppToLower s.tok.getCh) r.1).map Prod.fst = letterKeys
    rw [setVar_keys_of_mem hmem2, hv, hk]
  · exact ht

/-- One dispatched statement keeps the 26-letter key list and the token
list intact. -/
theorem statement_keys {n : Nat} {s s1 : Interp}
    (h : statement n s = Except.ok s1)
    (hL : LettersOK s.tok.toks) (hk : s.vars.map Prod.fst = letterKeys) :
    s1.vars.map Prod.fst = letterKeys ∧ s1.tok.toks = s.tok.toks := by
  unfold statement at h
  split_ifs at h with h1 h2 h3 h4 h5 h6
  · obtain rfl := Except.ok.inj h
    exact ⟨hk, skipPastLine_toks⟩
  · obtain ⟨hv, ht⟩ := print_statement_eff h
    exact ⟨by rw [hv]; exact hk, ht⟩
  · obtain ⟨hv, ht⟩ := if_statement_eff h
    exact ⟨by rw [hv]; exact hk, ht⟩
  · obtain ⟨hv, ht⟩ := goto_statement_eff h
    exact ⟨by rw [hv]; exact hk, ht⟩
  · rw [bindOk] at h
    obtain ⟨sa, hsa, h⟩ := h
    obtain ⟨rfl, -⟩ := accept_ok hsa
    obtain ⟨ha, hb⟩ := let_statement_keys h hL hk
    exact ⟨ha, hb⟩
  · exact let_statement_keys h hL hk

/-- One run-loop line keeps the 26-letter key list and the token list
intact. -/
theorem line_statement_keys {n : Nat} {s s1 : Interp}
    (h : line_statement n s = Except.ok s1)
    (hL : LettersOK s.tok.toks) (hk : s.vars.map Prod.fst = letterKeys) :
    s1.vars.map Prod.fst = letterKeys ∧ s1.tok.toks = s.tok.toks := by
  unfold line_statement at h
  dsimp only at h
  have hL2 : LettersOK (skipEols s.tok).toks := by
    rw [skipEols_toks]
    exact hL
  split_ifs at h with h1 h2
  · obtain rfl := Except.ok.inj h
    exact ⟨hk, skipEols_toks⟩
  · obtain ⟨ha, hb⟩ := statement_keys h hL2 hk
    exact ⟨ha, hb.trans skipEols_toks⟩
  · obtain ⟨ha, hb⟩ := statement_keys h hL2 hk
    exact ⟨ha, hb.trans skipEols_toks⟩

/-- The whole run loop keeps the 26-letter key list intact. -/
theorem runLoop_keys : ∀ n : Nat, ∀ s s1 : Interp, LettersOK s.tok.toks →
    s.vars.map Prod.fst = letterKeys → runLoop n s = Except.ok s1 →
    s1.vars.map Prod.fst = letterKeys := by
  intro n
  induction n with
  | zero =>
      intro s s1 hL hk h
      obtain rfl := Except.ok.inj h
      exact hk
  | succ n ih =>
      intro s s1 hL hk h
      unfold runLoop at h
      split_ifs at h with h1 h2 h3 h4 h5
      · obtain rfl := Except.ok.inj h
        exact hk
      · obtain rfl := Except.ok.inj h
        exact hk
      · rw [bindOk] at h
        obtain ⟨s2, hs2, h⟩ := h
        obtain ⟨ha, hb⟩ := statement_keys hs2 hL hk
        refine ih s2 s1 ?_ ha h
        show LettersOK s2.tok.toks
        rw [hb]
        exact hL
      · refine ih _ s1 ?_ ?_ h
        · show LettersOK (skipPastLine s.tok).toks
          rw [skipPastLine_toks]
          exact hL
        · exact hk
      · refine ih _ s1 ?_ ?_ h
        · show LettersOK (skipPastLine s.tok).toks
          rw [skipPastLine_toks]
          exact hL
        · exact hk
      · rw [bindOk] at h
        obtain ⟨s2, hs2, h⟩ := h
        obtain ⟨ha, hb⟩ := line_statement_keys hs2 hL hk
        refine ih s2 s1 ?_ ha h
        show LettersOK s2.tok.toks
        rw [hb]
        exact hL


/-- The assignment-statement tokens for the C8 witness: `A = 5`. -/
def c8Toks : List Tok := [letT 'A', kwT TokenType.EQUAL, numT 5 none]

/-- The state after executing the C8 witness assignment. -/
def c8Res : Interp := { mkS c8Toks 3 with vars := setVar initialVars 'a' 5 }

/-- Claim C8: the variable store holds exactly the 26 lowercase-letter
registers a–z, zero-initialized at interpreter construction; the key
list is preserved by every statement and by the whole run loop (for
streams whose letter tokens fold into the store keys); reading a letter
as a factor never fails; and a letter never assigned reads 0. -/
theorem claim_C8 :
    ((∀ l : List Tok, (initInterp l).vars = initialVars) ∧
      initialVars.length = 26 ∧ initialVars.map Prod.fst = letterKeys ∧
      (∀ p ∈ initialVars, p.2 = 0)) ∧
    (∀ c : Char, readVar initialVars c = 0) ∧
    (∀ n : Nat, ∀ s : Interp, s.curKind = TokenType.LETTER →
        factor (n + 1) s =
          Except.ok (readVar s.vars (cppToLower s.tok.getCh), s.adv)) ∧
    (∀ n : Nat, ∀ s s1 : Interp, statement n s = Except.ok s1 →
        LettersOK s.tok.toks → s.vars.map Prod.fst = letterKeys →
        s1.vars.map Prod.fst = letterKeys) ∧
    (∀ n : Nat, ∀ s s1 : Interp, runLoop n s = Except.ok s1 →
        LettersOK s.tok.toks → s.vars.map Prod.fst = letterKeys →
        s1.vars.map Prod.fst = letterKeys) := by
  refine ⟨⟨fun l => rfl, by decide, rfl, by decide⟩, ?_, ?_, ?_, ?_⟩
  · intro c
    exact readVar_zero (by decide)
  · intro n s hk
    unfold factor
    rw [if_neg (by rw [hk]; intro hx; cases hx), if_pos hk]
  · intro n s s1 h hL hk
    exact (statement_keys h hL hk).1
  · intro n s s1 h hL hk
    exact runLoop_keys n s s1 hL hk h

/-- Claim C8, witness: executing `A = 5` keeps the key list at exactly
the 26 letters, and a letter read as a factor succeeds, yielding 0 for
the never-assigned store. -/
theorem claim_C8_witness :
    (setVar initialVars 'a' 5).map Prod.fst = letterKeys ∧
    factor 5 (mkS c8Toks 0) = Except.ok (0, mkS c8Toks 1) := by
  constructor
  · exact claim_C8.2.2.2.1 9 (mkS c8Toks 0) c8Res rfl (by unfold LettersOK; decide) rfl
  · exact claim_C8.2.2.1 4 (mkS c8Toks 0) rfl

end Subaruu
